import Mathlib

/-!
# Patient dashboard script (`src/script.js`): embedding and verified properties

The script fetches a list of patient records, picks the record named
"Jessica Taylor", and renders the profile, the latest vitals, the diagnosis
list and a per-year blood-pressure chart.

Modelling conventions
* A JSON field is `JsField α`: missing (`undefined`), `null`, or a value.
  Optional chains such as `e?.blood_pressure?.systolic?.value` are stored
  flattened as one `JsField Int` (a nullish link anywhere gives `undefined`).
* A numeric field holds an integer (`Int`); the script sees it as a double.
  Sums and quotients are rounded as doubles are (`toDouble`: 53 significant
  bits, round to nearest, ties to even); magnitudes are taken to stay within
  the exponent range of doubles. The decimal numeral `numToString n` is what
  the script prints for the integers it can hold exactly (below `2 ^ 53` in
  magnitude).
* `Array.prototype.sort` is a stable sort (ECMAScript 2019); it is modelled
  by a stable insertion sort driven by the comparator's sign.
* The page is assumed to provide every text slot and list that the script
  looks up; only the avatar element is optional, because the script guards it.
-/

namespace NewWEB

/-! ## JavaScript values -/

/-- A property read from a JSON object: missing, `null`, or a value. -/
inductive JsField (α : Type) where
  | undefined : JsField α
  | null : JsField α
  | val (a : α) : JsField α
  deriving DecidableEq, Repr

/-- Number to string conversion for an integer (`String(n)`): its decimal
numeral, with a leading minus sign when negative. The script prints this for
every integer below `2 ^ 53` in magnitude; larger numbers, which it prints
with fewer digits or in exponent form, are outside the model. -/
def numToString (n : Int) : String := toString n

/-- The expression `x ?? d` for a string-valued field, as text. -/
def strOr (x : JsField String) (d : String) : String :=
  match x with
  | .val s => s
  | _ => d

/-- The expression `x ?? d` for a number-valued field, converted to text as a
template literal does. -/
def numOr (x : JsField Int) (d : String) : String :=
  match x with
  | .val n => numToString n
  | _ => d

/-- Template-literal conversion of a string-valued field. -/
def strTemplate (x : JsField String) : String :=
  match x with
  | .undefined => "undefined"
  | .null => "null"
  | .val s => s

/-- Template-literal conversion of a number-valued field. -/
def numTemplate (x : JsField Int) : String :=
  match x with
  | .undefined => "undefined"
  | .null => "null"
  | .val n => numToString n

/-- Truthiness of a string-valued field: nullish and the empty string are falsy. -/
def truthyStr (x : JsField String) : Bool :=
  match x with
  | .val s => s != ""
  | _ => false

/-- Truthiness of a number-valued field: nullish and zero are falsy. -/
def truthyNum (x : JsField Int) : Bool :=
  match x with
  | .val n => n != 0
  | _ => false

/-- Conversion `ToNumber`: `undefined` gives NaN (`none`), `null` gives 0. -/
def toNumber (x : JsField Int) : Option Int :=
  match x with
  | .undefined => none
  | .null => some 0
  | .val n => some n

/-- The subtraction `x - y` on number-valued fields; `none` is NaN. -/
def jsSub (x y : JsField Int) : Option Int :=
  match toNumber x, toNumber y with
  | some a, some b => some (a - b)
  | _, _ => none

/-! ## Data model -/

/-- One clinical snapshot of the diagnosis history. -/
structure HistoryEntry where
  month : JsField String
  year : JsField Int
  systolic : JsField Int
  diastolic : JsField Int
  heart_rate : JsField Int
  respiratory_rate : JsField Int
  temperature : JsField Int
  deriving DecidableEq, Repr

/-- The value of `diagnosis_history`: falsy (missing, `null`, ...), a truthy
value that is not an array, or an array of entries. -/
inductive History where
  | missing : History
  | nonArray : History
  | array (es : List HistoryEntry) : History
  deriving DecidableEq, Repr

/-- One patient record of the fetched list. -/
structure PatientRecord where
  name : JsField String
  gender : JsField String
  age : JsField Int
  date_of_birth : JsField String
  phone_number : JsField String
  emergency_contact : JsField String
  insurance_type : JsField String
  blood_type : JsField String
  profile_picture : JsField String
  diagnosis_history : History
  deriving DecidableEq, Repr

/-- The display surface: the avatar element (absent, or its background
image), the eight text slots, and the list items of the two lists. -/
structure Display where
  patientAvatar : Option String
  patientName : String
  patientGender : String
  patientAge : String
  patientDob : String
  patientPhone : String
  patientEmergency : String
  patientInsurance : String
  patientBloodType : String
  vitalsList : List String
  diagnosisList : List String
  deriving DecidableEq, Repr

/-! ## Array helpers -/

/-- Insertion of `a` in front of the first element it does not sort after. -/
def insertSorted {α : Type} (cmp : α → α → Int) (a : α) : List α → List α
  | [] => [a]
  | b :: l => if cmp a b ≤ 0 then a :: b :: l else b :: insertSorted cmp a l

/-- The method `Array.prototype.sort(cmp)`: a stable sort by the sign of `cmp`. -/
def arraySort {α : Type} (cmp : α → α → Int) : List α → List α
  | [] => []
  | a :: l => insertSorted cmp a (arraySort cmp l)

/-- The method `Array.prototype.indexOf` as an integer, `-1` when absent. -/
def indexOf (xs : List String) (x : JsField String) : Int :=
  match x with
  | .val s => if s ∈ xs then (xs.indexOf s : Int) else -1
  | _ => -1

/-! ## The script -/

/-- Source lines 14-16: `patients.find(p => p.name === "Jessica Taylor")`. -/
def selectJessica (patients : List PatientRecord) : Option PatientRecord :=
  patients.find? (fun p => decide (p.name = .val "Jessica Taylor"))

/-- Source lines 18-32. -/
def fillProfile (d : Display) (p : PatientRecord) : Display :=
  { d with
    patientAvatar :=
      match d.patientAvatar with
      | some img =>
        if truthyStr p.profile_picture then
          some ("url(" ++ strTemplate p.profile_picture ++ ")")
        else some img
      | none => none
    patientName := strOr p.name "Jessica Taylor"
    patientGender := strOr p.gender "—"
    patientAge := if truthyNum p.age then numTemplate p.age ++ " years" else "—"
    patientDob := strOr p.date_of_birth "—"
    patientPhone := strOr p.phone_number "—"
    patientEmergency := strOr p.emergency_contact "—"
    patientInsurance := strOr p.insurance_type "—"
    patientBloodType := strOr p.blood_type "—" }

/-- The month table of `latestVitalsFromHistory`. -/
def months : List String :=
  ["January", "February", "March", "April", "May", "June", "July", "August",
   "September", "October", "November", "December"]

/-- The comparator of source lines 39-42; a NaN result counts as `0`, as the
sort treats it. -/
def latestCmp (a b : HistoryEntry) : Int :=
  if a.year ≠ b.year then (jsSub b.year a.year).getD 0
  else indexOf months b.month - indexOf months a.month

/-- Source lines 34-44; `none` is the returned `null`. -/
def latestVitalsFromHistory (dh : History) : Option HistoryEntry :=
  match dh with
  | .array (e :: es) => (arraySort latestCmp (e :: es)).head?
  | _ => none

/-- Source lines 46-71; each list item is given by its inner HTML. -/
def fillVitals (d : Display) (latest : Option HistoryEntry) : Display :=
  match latest with
  | none => { d with vitalsList := ["No vitals available."] }
  | some e =>
    let bpSys := numOr e.systolic "—"
    let bpDia := numOr e.diastolic "—"
    let hr := numOr e.heart_rate "—"
    let rr := numOr e.respiratory_rate "—"
    let temp := numOr e.temperature "—"
    let items : List (String × String) :=
      [("Blood Pressure", bpSys ++ "/" ++ bpDia ++ " mmHg"),
       ("Heart Rate", hr ++ " bpm"),
       ("Respiratory Rate", rr ++ " bpm"),
       ("Temperature", temp ++ " °F")]
    { d with vitalsList := [] ++ items.map (fun it =>
        "<span class=\"label\">" ++ it.1 ++ "</span><span class=\"value\">" ++ it.2 ++ "</span>") }

/-- The text of one diagnosis line, source lines 81-84. -/
def diagnosisLine (entry : HistoryEntry) : String :=
  let sys := numOr entry.systolic "—"
  let dia := numOr entry.diastolic "—"
  strTemplate entry.month ++ " " ++ numTemplate entry.year ++ " — BP " ++ sys ++ "/" ++ dia
    ++ " mmHg, HR " ++ numOr entry.heart_rate "—" ++ " bpm"

/-- Source lines 73-87; each list item is given by its text. -/
def fillDiagnosisList (d : Display) (dh : History) : Display :=
  match dh with
  | .array (e :: es) => { d with diagnosisList := [] ++ ((e :: es).take 6).map diagnosisLine }
  | _ => { d with diagnosisList := ["No diagnosis history found."] }

/-! ## Per-year aggregation and chart -/

/-- The two value arrays `{sys:[], dia:[]}` kept per year. -/
structure YearBucket where
  sys : List Int
  dia : List Int
  deriving DecidableEq, Repr

/-- The object `byYear`: property keys with their buckets, in creation order. -/
abbrev ByYear := List (String × YearBucket)

/-- The property read `byYear[k]`. -/
def getBucket (o : ByYear) (k : String) : Option YearBucket :=
  match o with
  | [] => none
  | (k0, b) :: rest => if k0 = k then some b else getBucket rest k

/-- Source lines 98-100 for the key `k`: create the bucket when `byYear[k]` is
absent, then push `s` and `d` onto its arrays. -/
def pushBucket (o : ByYear) (k : String) (s d : Int) : ByYear :=
  match o with
  | [] => [(k, { sys := [] ++ [s], dia := [] ++ [d] })]
  | (k0, b) :: rest =>
    if k0 = k then (k0, { sys := b.sys ++ [s], dia := b.dia ++ [d] }) :: rest
    else (k0, b) :: pushBucket rest k s d

/-- The body of the `forEach` of source lines 93-101. The guard of line 97
(`typeof y !== "number" || s == null || d == null`) lets an entry through
exactly when the year is a number and both values are neither missing nor
`null`. -/
def groupStep (byYear : ByYear) (e : HistoryEntry) : ByYear :=
  match e.year, e.systolic, e.diastolic with
  | .val y, .val s, .val d => pushBucket byYear (numToString y) s d
  | _, _, _ => byYear

/-- Value of a run of decimal digits, most significant first. -/
def parseDigits : List Char → Nat → Option Nat
  | [], acc => some acc
  | c :: cs, acc =>
    if 48 ≤ c.toNat ∧ c.toNat ≤ 57 then parseDigits cs (10 * acc + (c.toNat - 48)) else none

/-- The array index denoted by a property key, if it is one: a canonical
decimal numeral below `2^32 - 1`. -/
def arrayIndex (k : String) : Option Nat :=
  match k.data with
  | [] => none
  | [c] => parseDigits [c] 0
  | c :: cs =>
    if c.toNat = 48 then none
    else (parseDigits (c :: cs) 0).filter (fun i => decide (i < 2 ^ 32 - 1))

/-- The call `Object.keys(o)`: array-index keys in ascending numeric order,
then the other keys in creation order. -/
def objectKeys (o : ByYear) : List String :=
  let ks := o.map Prod.fst
  let idx := ks.filterMap (fun k => (arrayIndex k).map (fun i => (i, k)))
  (arraySort (fun a b => (a.1 : Int) - (b.1 : Int)) idx).map Prod.snd
    ++ ks.filter (fun k => (arrayIndex k).isNone)

/-- Strict order of strings by their code units, as the relational operator
compares them (the keys here are ASCII). -/
def codeUnitsLt : List Char → List Char → Bool
  | [], [] => false
  | [], _ :: _ => true
  | _ :: _, [] => false
  | a :: as, b :: bs =>
    if a.toNat < b.toNat then true
    else if b.toNat < a.toNat then false
    else codeUnitsLt as bs

/-- The comparator used by `sort()` without an argument on strings. -/
def defaultCmp (x y : String) : Int :=
  if codeUnitsLt x.data y.data then -1
  else if codeUnitsLt y.data x.data then 1
  else 0

/-- Rounding of a rational to an integer nearest to it, ties to the even one. -/
def roundHalfEven (x : ℚ) : Int :=
  if x - (⌊x⌋ : ℚ) < 1 / 2 then ⌊x⌋
  else if 1 / 2 < x - (⌊x⌋ : ℚ) then ⌊x⌋ + 1
  else if ⌊x⌋ % 2 = 0 then ⌊x⌋ else ⌊x⌋ + 1

/-- The double nearest to the rational `q`: `q` is scaled so that it has 53
significant bits before the binary point, rounded to the nearest integer with
ties to even, and scaled back. Overflow and subnormal numbers are not
modelled. -/
def toDouble (q : ℚ) : ℚ :=
  if q = 0 then 0
  else (roundHalfEven (q / (2 : ℚ) ^ (Int.log 2 |q| - 52)) : ℚ) * (2 : ℚ) ^ (Int.log 2 |q| - 52)

/-- The sum `a + b` of two numbers, as the script computes it. -/
def fadd (a b : ℚ) : ℚ := toDouble (a + b)

/-- The quotient `a / b` of two numbers, as the script computes it. -/
def fdiv (a b : ℚ) : ℚ := toDouble (a / b)

/-- The function `Math.round`: the integer nearest to `x`, halves towards `+∞`. -/
def mathRound (x : ℚ) : Int := ⌊x + 1 / 2⌋

/-- Source lines 142-145. -/
def avg (arr : List Int) : Int :=
  let n : Nat := if arr.length = 0 then 1 else arr.length
  mathRound (fdiv (arr.foldl (fun (a : ℚ) (b : Int) => fadd a (b : ℚ)) 0) (n : ℚ))

/-- The data handed to the chart: labels and the two series. -/
structure ChartData where
  labels : List String
  systolic : List Int
  diastolic : List Int
  deriving DecidableEq, Repr

/-- Source lines 92-104: grouping by year and the three arrays derived from it. -/
def aggregateByYear (es : List HistoryEntry) : ChartData :=
  let byYear := es.foldl groupStep []
  let years := arraySort defaultCmp (objectKeys byYear)
  let bucket := fun y => (getBucket byYear y).getD { sys := [], dia := [] }
  { labels := years
    systolic := years.map (fun y => avg (bucket y).sys)
    diastolic := years.map (fun y => avg (bucket y).dia) }

/-- Source lines 89-140; `none` means that the function returned without
creating a chart. -/
def renderBPChart (dh : History) : Option ChartData :=
  match dh with
  | .array (e :: es) => some (aggregateByYear (e :: es))
  | _ => none

/-! ## Orchestration -/

/-- What the `fetch` call settles to: a rejection, or a response with its
status and the outcome of parsing its body. -/
inductive FetchResult where
  | rejected (reason : String) : FetchResult
  | response (status : Nat) (body : Except String (List PatientRecord)) : FetchResult

/-- The property `res.ok`: the status lies in 200..299. -/
def statusOk (status : Nat) : Bool := decide (200 ≤ status) && decide (status ≤ 299)

/-- Source lines 6-12. -/
def fetchPatients (r : FetchResult) : Except String (List PatientRecord) :=
  match r with
  | .rejected reason => .error reason
  | .response status body =>
    if !statusOk status then .error ("API request failed: " ++ toString status) else body

/-- A rendering step, recorded with its argument when it is called. -/
inductive Call where
  | fillProfile (p : PatientRecord) : Call
  | fillVitals (latest : Option HistoryEntry) : Call
  | fillDiagnosisList (dh : History) : Call
  | renderBPChart (dh : History) : Call
  deriving DecidableEq, Repr

/-- The observable state of the page: the display, the charts created, the
rendering steps called, the console errors and the alerts shown. -/
structure Page where
  display : Display
  charts : List ChartData
  calls : List Call
  console : List String
  alerts : List String
  deriving DecidableEq, Repr

/-- The expression `h || []`. -/
def orEmpty (h : History) : History :=
  match h with
  | .missing => .array []
  | h => h

/-- The `try` block of source lines 149-159: the page after it, and the error
thrown, if any. -/
def initTry (r : FetchResult) (pg : Page) : Page × Except String Unit :=
  match fetchPatients r with
  | .error err => (pg, .error err)
  | .ok patients =>
    match selectJessica patients with
    | none => (pg, .error "Jessica Taylor not found in API data")
    | some jessica =>
      let pg1 := { pg with
        display := fillProfile pg.display jessica
        calls := pg.calls ++ [Call.fillProfile jessica] }
      let latest := latestVitalsFromHistory (orEmpty jessica.diagnosis_history)
      let pg2 := { pg1 with
        display := fillVitals pg1.display latest
        calls := pg1.calls ++ [Call.fillVitals latest] }
      let pg3 := { pg2 with
        display := fillDiagnosisList pg2.display (orEmpty jessica.diagnosis_history)
        calls := pg2.calls ++ [Call.fillDiagnosisList (orEmpty jessica.diagnosis_history)] }
      let pg4 := { pg3 with
        charts := pg3.charts ++ (renderBPChart (orEmpty jessica.diagnosis_history)).toList
        calls := pg3.calls ++ [Call.renderBPChart (orEmpty jessica.diagnosis_history)] }
      (pg4, .ok ())

/-- Source lines 147-164. -/
def init (r : FetchResult) (pg : Page) : Page :=
  match initTry r pg with
  | (pg1, .ok _) => pg1
  | (pg1, .error err) =>
    { pg1 with
      console := pg1.console ++ [err]
      alerts := pg1.alerts ++ ["Failed to load patient data. See console for details."] }

/-! ## Sample data used in the concrete checks -/

/-- A display whose slots are all empty and whose avatar element exists. -/
def blankDisplay : Display :=
  { patientAvatar := some "", patientName := "", patientGender := "", patientAge := "",
    patientDob := "", patientPhone := "", patientEmergency := "", patientInsurance := "",
    patientBloodType := "", vitalsList := [], diagnosisList := [] }

/-- A page on which nothing has happened yet. -/
def blankPage : Page :=
  { display := blankDisplay, charts := [], calls := [], console := [], alerts := [] }

/-- A record in which every field is `null` and the history is missing. -/
def nullRecord : PatientRecord :=
  { name := .null, gender := .null, age := .null, date_of_birth := .null,
    phone_number := .null, emergency_contact := .null, insurance_type := .null,
    blood_type := .null, profile_picture := .null, diagnosis_history := .missing }

/-- The reading of January 2023 from the end-to-end example. -/
def january2023 : HistoryEntry :=
  { month := .val "January", year := .val 2023, systolic := .val 120, diastolic := .val 80,
    heart_rate := .undefined, respiratory_rate := .undefined, temperature := .undefined }

/-- The reading of March 2023 from the end-to-end example. -/
def march2023 : HistoryEntry :=
  { month := .val "March", year := .val 2023, systolic := .val 130, diastolic := .val 85,
    heart_rate := .undefined, respiratory_rate := .undefined, temperature := .undefined }

/-- A second reading of March 2023, told apart by its heart rate. -/
def march2023Second : HistoryEntry :=
  { month := .val "March", year := .val 2023, systolic := .val 135, diastolic := .val 88,
    heart_rate := .val 72, respiratory_rate := .undefined, temperature := .undefined }

/-- A reading dated in the year 999. -/
def march999 : HistoryEntry :=
  { month := .val "March", year := .val 999, systolic := .val 110, diastolic := .val 70,
    heart_rate := .undefined, respiratory_rate := .undefined, temperature := .undefined }

/-- A reading of January with no year. -/
def januaryNoYear : HistoryEntry :=
  { month := .val "January", year := .undefined, systolic := .val 120, diastolic := .val 80,
    heart_rate := .undefined, respiratory_rate := .undefined, temperature := .undefined }

/-- A reading of 2023 whose systolic value is `2 ^ 53`. -/
def huge2023 : HistoryEntry :=
  { month := .val "January", year := .val 2023, systolic := .val 9007199254740992,
    diastolic := .val 80, heart_rate := .undefined, respiratory_rate := .undefined,
    temperature := .undefined }

/-- A reading of 2023 whose systolic value is `1`. -/
def one2023 : HistoryEntry :=
  { month := .val "March", year := .val 2023, systolic := .val 1, diastolic := .val 85,
    heart_rate := .undefined, respiratory_rate := .undefined, temperature := .undefined }

/-! ## Specification-side notions -/

/-- A field is nullish when it is missing or `null`. -/
def JsField.isNullish {α : Type} (x : JsField α) : Prop := x = .undefined ∨ x = .null

/-- The target name of the selector, as a field value. -/
def targetName : JsField String := .val "Jessica Taylor"

/-- A vital sign as shown in a line: its decimal numeral, or the placeholder. -/
def shown (x : JsField Int) : String :=
  match x with
  | .val n => toString n
  | _ => "—"

/-- The year of an entry as an integer (`0` when it is not a number). -/
def yearOf (e : HistoryEntry) : Int :=
  match e.year with
  | .val y => y
  | _ => 0

/-- The position of the entry's month in the month table, `-1` when it is not
in the table. -/
def monthIndex (e : HistoryEntry) : Int := indexOf months e.month

/-- The entry has an integer year. -/
def HasYear (e : HistoryEntry) : Prop := ∃ y, e.year = .val y

/-- The entry's month is one of the twelve names of the month table. -/
def HasMonth (e : HistoryEntry) : Prop := ∃ m ∈ months, e.month = .val m

/-- The (year, month-index) pair of `e` is lexicographically at most that of `r`. -/
def NotLater (e r : HistoryEntry) : Prop :=
  yearOf e < yearOf r ∨ (yearOf e = yearOf r ∧ monthIndex e ≤ monthIndex r)

/-- The entries `e` and `r` have the same (year, month-index) pair. -/
def SamePair (e r : HistoryEntry) : Prop :=
  yearOf e = yearOf r ∧ monthIndex e = monthIndex r

/-- The (year, month-index) pair of an entry in the lexicographic order. -/
def recencyKey (e : HistoryEntry) : ℤ ×ₗ ℤ := toLex (yearOf e, monthIndex e)

/-- The number read from a run of decimal digits, continuing from `acc`. -/
def digitsValue (cs : List Char) (acc : Nat) : Nat :=
  cs.foldl (fun a c => 10 * a + (c.toNat - 48)) acc

/-- The bucket read by `byYear[k]`, with empty arrays when the key is absent. -/
def bucketOf (o : ByYear) (k : String) : YearBucket :=
  (getBucket o k).getD { sys := [], dia := [] }

/-- The year, systolic and diastolic value of an entry in which the year is a
number and both values are present. -/
def completeReading (e : HistoryEntry) : Option (Int × Int × Int) :=
  match e.year, e.systolic, e.diastolic with
  | .val y, .val s, .val d => some (y, s, d)
  | _, _, _ => none

/-- The (systolic, diastolic) pairs, in input order, of the complete readings
whose year has the numeral `k`. -/
def keyReadings (k : String) (es : List HistoryEntry) : List (Int × Int) :=
  (es.filterMap completeReading).filterMap
    (fun r => if numToString r.1 = k then some r.2 else none)

/-- The (systolic, diastolic) pairs, in input order, of the complete readings
of year `y`. -/
def yearReadings (y : Int) (es : List HistoryEntry) : List (Int × Int) :=
  (es.filterMap completeReading).filterMap (fun r => if r.1 = y then some r.2 else none)

/-- The arithmetic mean of a list of integers, rounded to the nearest integer
with halves rounded up. -/
def roundedMean (xs : List Int) : Int := ⌊((xs.sum : Int) : ℚ) / (xs.length : ℚ) + 1 / 2⌋

/-- The sum of the absolute values of a list of integers. -/
def absSum (xs : List Int) : Nat := (xs.map Int.natAbs).sum

/-- The quotient `a / n` rounded to the nearest integer with halves rounded
up, in integer arithmetic: the floor of `(2a + n) / (2n)`. -/
def roundedQuotient (a : Int) (n : Nat) : Int := (2 * a + (n : Int)) / (2 * (n : Int))

/-- The average of source lines 142-145 in exact integer arithmetic. -/
def exactAvg (arr : List Int) : Int :=
  roundedQuotient arr.sum (if arr.length = 0 then 1 else arr.length)

/-- The aggregation of source lines 92-104 with the averages taken in exact
integer arithmetic. -/
def exactAggregate (es : List HistoryEntry) : ChartData :=
  { labels := arraySort defaultCmp (objectKeys (es.foldl groupStep []))
    systolic := (arraySort defaultCmp (objectKeys (es.foldl groupStep []))).map
      (fun k => exactAvg (bucketOf (es.foldl groupStep []) k).sys)
    diastolic := (arraySort defaultCmp (objectKeys (es.foldl groupStep []))).map
      (fun k => exactAvg (bucketOf (es.foldl groupStep []) k).dia) }

/-- The sum of the absolute systolic values of the complete readings. -/
def systolicMass (es : List HistoryEntry) : Nat :=
  ((es.filterMap completeReading).map (fun r => r.2.1.natAbs)).sum

/-- The sum of the absolute diastolic values of the complete readings. -/
def diastolicMass (es : List HistoryEntry) : Nat :=
  ((es.filterMap completeReading).map (fun r => r.2.2.natAbs)).sum

/-! ## Patient selection -/

theorem find_none_iff (ps : List PatientRecord) :
    selectJessica ps = none ↔ ∀ q ∈ ps, q.name ≠ targetName := by
  unfold selectJessica targetName
  rw [List.find?_eq_none]
  constructor
  · intro h q hq
    simpa using h q hq
  · intro h q hq
    simpa using h q hq

theorem find_some_split (ps : List PatientRecord) (p : PatientRecord)
    (h : selectJessica ps = some p) :
    ∃ pre post, ps = pre ++ p :: post ∧ p.name = targetName ∧
      ∀ q ∈ pre, q.name ≠ targetName := by
  unfold selectJessica at h
  induction ps with
  | nil => simp at h
  | cons a l ih =>
    by_cases ha : a.name = targetName
    · have hp : a = p := by
        have : List.find? (fun p => decide (p.name = JsField.val "Jessica Taylor")) (a :: l)
            = some a := by
          simp only [List.find?_cons]
          have : decide (a.name = JsField.val "Jessica Taylor") = true := by
            simpa [targetName] using ha
          rw [this]
        rw [this] at h
        exact Option.some.inj h
      subst hp
      exact ⟨[], l, rfl, ha, by simp⟩
    · have hl : List.find? (fun p => decide (p.name = JsField.val "Jessica Taylor")) l
          = some p := by
        have hd : decide (a.name = JsField.val "Jessica Taylor") = false := by
          simpa [targetName] using ha
        simpa only [List.find?_cons, hd] using h
      obtain ⟨pre, post, hps, hn, hpre⟩ := ih hl
      refine ⟨a :: pre, post, by rw [hps]; rfl, hn, ?_⟩
      intro q hq
      rcases List.mem_cons.mp hq with rfl | hq
      · exact ha
      · exact hpre q hq

/-- C5: `selectJessica` returns the first record, in input order, whose name is
exactly "Jessica Taylor", and returns nothing exactly when no record has that
name; it is a total function, so it never fails. -/
theorem selectJessica_first_exact_match (patients : List PatientRecord) :
    (selectJessica patients = none ↔
        ∀ q ∈ patients, q.name ≠ JsField.val "Jessica Taylor") ∧
    (∀ p, selectJessica patients = some p →
        ∃ pre post, patients = pre ++ p :: post ∧ p.name = JsField.val "Jessica Taylor" ∧
          ∀ q ∈ pre, q.name ≠ JsField.val "Jessica Taylor") ∧
    ((∃ q ∈ patients, q.name = JsField.val "Jessica Taylor") →
        ∃ p, selectJessica patients = some p) :=
  ⟨find_none_iff patients, fun p h => find_some_split patients p h, by
    rintro ⟨q, hq, hn⟩
    cases h : selectJessica patients with
    | some p => exact ⟨p, rfl⟩
    | none => exact absurd hn ((find_none_iff patients).mp h q hq)⟩

/-- The selector on a list whose second and third records carry the name: the
second one is returned; a differently capitalised name is not matched. -/
theorem selectJessica_first_exact_match_witness :
    selectJessica [{ nullRecord with name := .val "jessica taylor" },
        { nullRecord with name := .val "Jessica Taylor", gender := .val "Female" },
        { nullRecord with name := .val "Jessica Taylor", gender := .val "Male" }]
      = some { nullRecord with name := .val "Jessica Taylor", gender := .val "Female" } ∧
    ∃ p, selectJessica [{ nullRecord with name := .val "jessica taylor" },
        { nullRecord with name := .val "Jessica Taylor", gender := .val "Female" },
        { nullRecord with name := .val "Jessica Taylor", gender := .val "Male" }] = some p :=
  ⟨by decide, (selectJessica_first_exact_match _).2.2
    ⟨{ nullRecord with name := .val "Jessica Taylor", gender := .val "Female" },
      by simp, rfl⟩⟩

/-! ## Profile rendering -/

/-- C7: at age `0`, an integer that is present, the age slot receives the
placeholder and not the text "0 years": the truthiness test on `p.age` takes
zero for a missing value. -/
theorem fillProfile_age_zero_placeholder (d : Display) (p : PatientRecord) :
    (fillProfile d { p with age := .val 0 }).patientAge = "—" ∧
    (fillProfile d { p with age := .val 0 }).patientAge ≠ numToString 0 ++ " years" := by
  constructor
  · rfl
  · show ("—" : String) ≠ numToString 0 ++ " years"
    decide

theorem fillProfile_age_nonzero (d : Display) (p : PatientRecord) (n : Int)
    (hage : p.age = .val n) (hn : n ≠ 0) :
    (fillProfile d p).patientAge = numToString n ++ " years" := by
  simp [fillProfile, hage, truthyNum, numTemplate, hn]

/-- C8, as stated, fails for the name: with `name = null` the name slot
receives "Jessica Taylor", not the placeholder. -/
theorem fillProfile_null_name_not_placeholder :
    nullRecord.name = .null ∧
    (fillProfile blankDisplay nullRecord).patientName = "Jessica Taylor" ∧
    (fillProfile blankDisplay nullRecord).patientName ≠ "—" := by
  refine ⟨rfl, rfl, ?_⟩
  decide

/-- C8, amended: each of gender, age, date of birth, phone number, emergency
contact, insurance type and blood type that is `null` or missing leaves the
placeholder in its slot (so `age = null` shows the placeholder), and a `null`
or missing name shows "Jessica Taylor". -/
theorem fillProfile_nullish_fields (d : Display) (p : PatientRecord) :
    (p.gender.isNullish → (fillProfile d p).patientGender = "—") ∧
    (p.age.isNullish → (fillProfile d p).patientAge = "—") ∧
    (p.date_of_birth.isNullish → (fillProfile d p).patientDob = "—") ∧
    (p.phone_number.isNullish → (fillProfile d p).patientPhone = "—") ∧
    (p.emergency_contact.isNullish → (fillProfile d p).patientEmergency = "—") ∧
    (p.insurance_type.isNullish → (fillProfile d p).patientInsurance = "—") ∧
    (p.blood_type.isNullish → (fillProfile d p).patientBloodType = "—") ∧
    (p.name.isNullish → (fillProfile d p).patientName = "Jessica Taylor") := by
  refine ⟨?_, ?_, ?_, ?_, ?_, ?_, ?_, ?_⟩ <;>
    · intro h
      rcases h with h | h <;> simp [fillProfile, h, strOr, truthyNum]

/-- The amended C8 on the record whose fields are all `null`. -/
theorem fillProfile_nullish_fields_witness :
    (fillProfile blankDisplay nullRecord).patientGender = "—" ∧
    (fillProfile blankDisplay nullRecord).patientAge = "—" ∧
    (fillProfile blankDisplay nullRecord).patientDob = "—" ∧
    (fillProfile blankDisplay nullRecord).patientPhone = "—" ∧
    (fillProfile blankDisplay nullRecord).patientEmergency = "—" ∧
    (fillProfile blankDisplay nullRecord).patientInsurance = "—" ∧
    (fillProfile blankDisplay nullRecord).patientBloodType = "—" ∧
    (fillProfile blankDisplay nullRecord).patientName = "Jessica Taylor" :=
  have h := fillProfile_nullish_fields blankDisplay nullRecord
  ⟨h.1 (Or.inr rfl), h.2.1 (Or.inr rfl), h.2.2.1 (Or.inr rfl), h.2.2.2.1 (Or.inr rfl),
    h.2.2.2.2.1 (Or.inr rfl), h.2.2.2.2.2.1 (Or.inr rfl), h.2.2.2.2.2.2.1 (Or.inr rfl),
    h.2.2.2.2.2.2.2 (Or.inr rfl)⟩

/-! ## Idempotence of rendering -/

theorem fillProfile_twice (d : Display) (p : PatientRecord) :
    fillProfile (fillProfile d p) p = fillProfile d p := by
  cases hd : d.patientAvatar with
  | none => simp [fillProfile, hd]
  | some img =>
    cases ht : truthyStr p.profile_picture <;> simp [fillProfile, hd, ht]

theorem fillVitals_twice (d : Display) (latest : Option HistoryEntry) :
    fillVitals (fillVitals d latest) latest = fillVitals d latest := by
  cases latest <;> rfl

theorem fillDiagnosisList_twice (d : Display) (dh : History) :
    fillDiagnosisList (fillDiagnosisList d dh) dh = fillDiagnosisList d dh := by
  cases dh with
  | missing => rfl
  | nonArray => rfl
  | array es => cases es <;> rfl

/-- C9: rendering is idempotent on the display state. Each of `fillProfile`,
`fillVitals` and `fillDiagnosisList`, and the three applied in the order of the
script, give the same display when applied a second time with the same input,
for every record, latest entry, history and prior display. -/
theorem rendering_idempotent (d : Display) (p : PatientRecord)
    (latest : Option HistoryEntry) (dh : History) :
    fillProfile (fillProfile d p) p = fillProfile d p ∧
    fillVitals (fillVitals d latest) latest = fillVitals d latest ∧
    fillDiagnosisList (fillDiagnosisList d dh) dh = fillDiagnosisList d dh ∧
    fillDiagnosisList (fillVitals (fillProfile
        (fillDiagnosisList (fillVitals (fillProfile d p) latest) dh) p) latest) dh
      = fillDiagnosisList (fillVitals (fillProfile d p) latest) dh := by
  refine ⟨fillProfile_twice d p, fillVitals_twice d latest, fillDiagnosisList_twice d dh, ?_⟩
  cases hd : d.patientAvatar with
  | none =>
    cases latest <;> cases dh with
    | missing => simp [fillProfile, fillVitals, fillDiagnosisList, hd]
    | nonArray => simp [fillProfile, fillVitals, fillDiagnosisList, hd]
    | array es => cases es <;> simp [fillProfile, fillVitals, fillDiagnosisList, hd]
  | some img =>
    cases ht : truthyStr p.profile_picture <;> cases latest <;> cases dh with
    | missing => simp [fillProfile, fillVitals, fillDiagnosisList, hd, ht]
    | nonArray => simp [fillProfile, fillVitals, fillDiagnosisList, hd, ht]
    | array es => cases es <;> simp [fillProfile, fillVitals, fillDiagnosisList, hd, ht]

/-! ## Diagnosis list -/

theorem numOr_placeholder (x : JsField Int) : numOr x "—" = shown x := by
  cases x <;> rfl

theorem diagnosisLine_form (e : HistoryEntry) :
    diagnosisLine e = strTemplate e.month ++ " " ++ numTemplate e.year ++ " — BP " ++
      shown e.systolic ++ "/" ++ shown e.diastolic ++ " mmHg, HR " ++ shown e.heart_rate
      ++ " bpm" := by
  simp only [diagnosisLine, numOr_placeholder]

/-- C10: for a non-empty array the diagnosis list receives exactly
`min 6 length` lines, the `i`-th built from the `i`-th entry of the input in
input order, of the form "Month Year — BP S/D mmHg, HR R bpm" with the
placeholder for a missing systolic, diastolic or heart-rate value; for a
missing, non-array or empty history it receives the single line
"No diagnosis history found.". -/
theorem fillDiagnosisList_lines (d : Display) (dh : History) :
    (∀ es, dh = .array es → es ≠ [] →
      (fillDiagnosisList d dh).diagnosisList.length = min 6 es.length ∧
      ∀ i, i < 6 → ∀ e, es[i]? = some e →
        (fillDiagnosisList d dh).diagnosisList[i]? =
          some (strTemplate e.month ++ " " ++ numTemplate e.year ++ " — BP " ++
            shown e.systolic ++ "/" ++ shown e.diastolic ++ " mmHg, HR " ++
            shown e.heart_rate ++ " bpm")) ∧
    ((dh = .missing ∨ dh = .nonArray ∨ dh = .array []) →
      (fillDiagnosisList d dh).diagnosisList = ["No diagnosis history found."]) := by
  constructor
  · intro es hdh hne
    subst hdh
    cases es with
    | nil => exact absurd rfl hne
    | cons a l =>
      constructor
      · simp only [fillDiagnosisList, List.nil_append, List.length_map, List.length_take]
      · intro i hi e he
        simp only [fillDiagnosisList, List.nil_append, List.getElem?_map]
        rw [List.getElem?_take_of_lt hi, he]
        simp [diagnosisLine_form]
  · rintro (h | h | h) <;> subst h <;> rfl

/-- C10 on the two readings of 2023, given with March first: two lines, in
input order. -/
theorem fillDiagnosisList_lines_witness :
    (fillDiagnosisList blankDisplay (.array [march2023, january2023])).diagnosisList.length
      = 2 ∧
    (fillDiagnosisList blankDisplay (.array [march2023, january2023])).diagnosisList[1]?
      = some "January 2023 — BP 120/80 mmHg, HR — bpm" ∧
    (fillDiagnosisList blankDisplay (.array [])).diagnosisList
      = ["No diagnosis history found."] :=
  have h := fillDiagnosisList_lines blankDisplay (.array [march2023, january2023])
  ⟨(h.1 [march2023, january2023] rfl (by decide)).1,
    (h.1 [march2023, january2023] rfl (by decide)).2 1 (by decide) january2023 rfl,
    (fillDiagnosisList_lines blankDisplay (.array [])).2 (Or.inr (Or.inr rfl))⟩

/-! ## Orchestration -/

/-- C4: when the response has a non-success status, or the fetched list has no
record named "Jessica Taylor", `init` calls no rendering step (the display and
the charts are untouched), logs exactly one error to the console and shows
exactly one alert. -/
theorem init_failure_no_rendering (r : FetchResult) (pg : Page)
    (h : (∃ status body, r = .response status body ∧ statusOk status = false) ∨
      (∃ status ps, r = .response status (.ok ps) ∧ statusOk status = true ∧
        ∀ p ∈ ps, p.name ≠ JsField.val "Jessica Taylor")) :
    (init r pg).calls = pg.calls ∧
    (init r pg).display = pg.display ∧
    (init r pg).charts = pg.charts ∧
    (∃ err, (init r pg).console = pg.console ++ [err]) ∧
    (init r pg).alerts = pg.alerts ++ ["Failed to load patient data. See console for details."] := by
  rcases h with ⟨status, body, hr, hs⟩ | ⟨status, ps, hr, hs, hps⟩
  · subst hr
    simp [init, initTry, fetchPatients, hs]
  · subst hr
    have hsel : selectJessica ps = none := (find_none_iff ps).mpr hps
    simp [init, initTry, fetchPatients, hs, hsel]

/-- C4 on a response with status 500, and on a successful response whose list
holds one record with another name. -/
theorem init_failure_no_rendering_witness :
    ((init (.response 500 (.ok [])) blankPage).calls = [] ∧
      (init (.response 500 (.ok [])) blankPage).console = ["API request failed: 500"] ∧
      (init (.response 500 (.ok [])) blankPage).alerts
        = ["Failed to load patient data. See console for details."]) ∧
    ((init (.response 200 (.ok [{ nullRecord with name := .val "John Doe" }])) blankPage).calls
        = [] ∧
      (init (.response 200 (.ok [{ nullRecord with name := .val "John Doe" }])) blankPage).console
        = ["Jessica Taylor not found in API data"] ∧
      (init (.response 200 (.ok [{ nullRecord with name := .val "John Doe" }])) blankPage).alerts
        = ["Failed to load patient data. See console for details."]) :=
  ⟨⟨(init_failure_no_rendering (.response 500 (.ok [])) blankPage
        (Or.inl ⟨500, .ok [], rfl, by decide⟩)).1,
      by decide,
      (init_failure_no_rendering (.response 500 (.ok [])) blankPage
        (Or.inl ⟨500, .ok [], rfl, by decide⟩)).2.2.2.2⟩,
    ⟨(init_failure_no_rendering
        (.response 200 (.ok [{ nullRecord with name := .val "John Doe" }])) blankPage
        (Or.inr ⟨200, [{ nullRecord with name := .val "John Doe" }], rfl, by decide,
          by decide⟩)).1,
      by decide,
      (init_failure_no_rendering
        (.response 200 (.ok [{ nullRecord with name := .val "John Doe" }])) blankPage
        (Or.inr ⟨200, [{ nullRecord with name := .val "John Doe" }], rfl, by decide,
          by decide⟩)).2.2.2.2⟩⟩

/-! ## Most recent entry -/

theorem arraySort_head_cons {α : Type} (cmp : α → α → Int) (a : α) (l : List α) :
    (arraySort cmp (a :: l)).head? =
      some (match (arraySort cmp l).head? with
        | none => a
        | some b => if cmp a b ≤ 0 then a else b) := by
  show (insertSorted cmp a (arraySort cmp l)).head? = _
  cases arraySort cmp l with
  | nil => rfl
  | cons b t =>
    by_cases h : cmp a b ≤ 0 <;> simp [insertSorted, h]

theorem arraySort_head_first_max {α K : Type} [LinearOrder K] (cmp : α → α → Int)
    (k : α → K) (l : List α)
    (hcmp : ∀ a ∈ l, ∀ b ∈ l, (cmp a b ≤ 0 ↔ k b ≤ k a)) (hne : l ≠ []) :
    ∃ pre r post, l = pre ++ r :: post ∧ (arraySort cmp l).head? = some r ∧
      (∀ x ∈ l, k x ≤ k r) ∧ ∀ x ∈ pre, k x < k r := by
  induction l with
  | nil => exact absurd rfl hne
  | cons a t ih =>
    rw [arraySort_head_cons]
    by_cases ht : t = []
    · subst ht
      refine ⟨[], a, [], rfl, rfl, ?_, by simp⟩
      intro x hx
      rw [List.mem_singleton.mp hx]
    · have hcmp2 : ∀ x ∈ t, ∀ y ∈ t, (cmp x y ≤ 0 ↔ k y ≤ k x) := fun x hx y hy =>
        hcmp x (List.mem_cons_of_mem _ hx) y (List.mem_cons_of_mem _ hy)
      obtain ⟨pre, r, post, hsplit, hhead, hmax, hpre⟩ := ih hcmp2 ht
      have hr : r ∈ t := by rw [hsplit]; simp
      rw [hhead]
      by_cases hc : cmp a r ≤ 0
      · have har : k r ≤ k a :=
          (hcmp a (List.mem_cons_self _ _) r (List.mem_cons_of_mem _ hr)).mp hc
        refine ⟨[], a, t, rfl, by simp [hc], ?_, by simp⟩
        intro x hx
        rcases List.mem_cons.mp hx with rfl | hx
        · exact le_rfl
        · exact le_trans (hmax x hx) har
      · have har : k a < k r := by
          rw [hcmp a (List.mem_cons_self _ _) r (List.mem_cons_of_mem _ hr)] at hc
          exact lt_of_not_le hc
        refine ⟨a :: pre, r, post, by rw [hsplit]; rfl, by simp [hc], ?_, ?_⟩
        · intro x hx
          rcases List.mem_cons.mp hx with rfl | hx
          · exact le_of_lt har
          · exact hmax x hx
        · intro x hx
          rcases List.mem_cons.mp hx with rfl | hx
          · exact har
          · exact hpre x hx

theorem recencyKey_le_iff (e r : HistoryEntry) :
    recencyKey e ≤ recencyKey r ↔ NotLater e r := by
  unfold recencyKey NotLater
  rw [Prod.Lex.le_iff]

theorem recencyKey_eq_iff (e r : HistoryEntry) :
    recencyKey e = recencyKey r ↔ SamePair e r := by
  unfold recencyKey SamePair
  constructor
  · intro h
    have h2 := congrArg ofLex h
    simpa using h2
  · rintro ⟨h1, h2⟩
    rw [h1, h2]

theorem latestCmp_sign (a b : HistoryEntry) (ha : HasYear a) (hb : HasYear b) :
    latestCmp a b ≤ 0 ↔ recencyKey b ≤ recencyKey a := by
  obtain ⟨ya, hya⟩ := ha
  obtain ⟨yb, hyb⟩ := hb
  rw [recencyKey_le_iff]
  unfold latestCmp NotLater yearOf monthIndex
  rw [hya, hyb]
  by_cases h : ya = yb
  · subst h
    simp
  · have h2 : (JsField.val ya : JsField Int) ≠ JsField.val yb := by
      intro hc
      exact h (JsField.val.inj hc)
    simp only [h2, ne_eq, not_false_eq_true, if_true, jsSub, toNumber, Option.getD_some]
    constructor
    · intro hle
      left
      omega
    · rintro (hlt | ⟨heq, _⟩)
      · omega
      · exact absurd heq.symm h

theorem latest_first_max (es : List HistoryEntry) (hy : ∀ e ∈ es, HasYear e)
    (hne : es ≠ []) :
    ∃ pre r post, es = pre ++ r :: post ∧ latestVitalsFromHistory (.array es) = some r ∧
      (∀ x ∈ es, recencyKey x ≤ recencyKey r) ∧ ∀ x ∈ pre, recencyKey x < recencyKey r := by
  obtain ⟨pre, r, post, hsplit, hhead, hmax, hpre⟩ :=
    arraySort_head_first_max latestCmp recencyKey es
      (fun a ha b hb => latestCmp_sign a b (hy a ha) (hy b hb)) hne
  refine ⟨pre, r, post, hsplit, ?_, hmax, hpre⟩
  cases es with
  | nil => exact absurd rfl hne
  | cons a t => exact hhead

/-- C1: for a non-empty history whose entries have integer years and months
from the twelve-month table, `latestVitalsFromHistory` returns an entry of the
history whose (year, month-index) pair is lexicographically at least that of
every entry; for the empty history it returns `null`. -/
theorem latestVitals_is_maximal :
    latestVitalsFromHistory (.array []) = none ∧
    ∀ es : List HistoryEntry, es ≠ [] → (∀ e ∈ es, HasYear e) → (∀ e ∈ es, HasMonth e) →
      ∃ r ∈ es, latestVitalsFromHistory (.array es) = some r ∧ ∀ e ∈ es, NotLater e r := by
  refine ⟨rfl, ?_⟩
  intro es hne hy _
  obtain ⟨pre, r, post, hsplit, hres, hmax, _⟩ := latest_first_max es hy hne
  refine ⟨r, by rw [hsplit]; simp, hres, ?_⟩
  intro e he
  exact (recencyKey_le_iff e r).mp (hmax e he)

/-- C1 on the end-to-end example: of January 2023 and March 2023 the March
entry is returned. -/
theorem latestVitals_is_maximal_witness :
    latestVitalsFromHistory (.array [january2023, march2023]) = some march2023 ∧
    ∃ r ∈ [january2023, march2023],
      latestVitalsFromHistory (.array [january2023, march2023]) = some r ∧
      ∀ e ∈ [january2023, march2023], NotLater e r :=
  ⟨by decide,
    latestVitals_is_maximal.2 [january2023, march2023] (by decide)
      (by
        intro e he
        simp only [List.mem_cons, List.mem_singleton, List.not_mem_nil, or_false] at he
        rcases he with rfl | rfl
        · exact ⟨2023, rfl⟩
        · exact ⟨2023, rfl⟩)
      (by
        intro e he
        simp only [List.mem_cons, List.mem_singleton, List.not_mem_nil, or_false] at he
        rcases he with rfl | rfl
        · exact ⟨"January", by decide, rfl⟩
        · exact ⟨"March", by decide, rfl⟩)⟩

/-- C6, amended: in a history whose entries all have integer years, when
several entries share the maximal (year, month) pair, the one that comes first
in the input is returned: if `r` is preceded only by entries with another pair
and no entry has a later pair, the result is `r`. -/
theorem latestVitals_first_of_ties (pre post : List HistoryEntry) (r : HistoryEntry)
    (hy : ∀ e ∈ pre ++ r :: post, HasYear e)
    (hmax : ∀ e ∈ pre ++ r :: post, NotLater e r)
    (hfirst : ∀ e ∈ pre, ¬ SamePair e r) :
    latestVitalsFromHistory (.array (pre ++ r :: post)) = some r := by
  obtain ⟨pre2, r2, post2, hsplit, hres, hmax2, hpre2⟩ :=
    latest_first_max (pre ++ r :: post) hy (by simp)
  rw [hres]
  have hr2 : r2 ∈ pre ++ r :: post := by rw [hsplit]; simp
  have hr : r ∈ pre ++ r :: post := by simp
  have hkey : recencyKey r2 = recencyKey r :=
    le_antisymm ((recencyKey_le_iff r2 r).mpr (hmax r2 hr2)) (hmax2 r hr)
  rcases List.append_eq_append_iff.mp hsplit with ⟨m, hm1, hm2⟩ | ⟨m, hm1, hm2⟩
  · -- pre2 = pre ++ m
    cases m with
    | nil =>
      simp only [List.nil_append] at hm2
      exact congrArg some (List.cons.inj hm2).1.symm
    | cons c m2 =>
      have hc : c = r := (List.cons.inj hm2).1.symm
      have : r ∈ pre2 := by rw [hm1, ← hc]; simp
      exact absurd hkey.symm (ne_of_lt (hpre2 r this))
  · -- pre = pre2 ++ m
    cases m with
    | nil =>
      simp only [List.nil_append] at hm2
      exact congrArg some (List.cons.inj hm2).1
    | cons c m2 =>
      have hc : c = r2 := (List.cons.inj hm2).1.symm
      have : r2 ∈ pre := by rw [hm1, ← hc]; simp
      exact absurd ((recencyKey_eq_iff r2 r).mp hkey) (hfirst r2 this)

/-- C6, as stated, fails when an entry has no year: every comparison with it
is NaN, the stable sort leaves it in front, and it is returned although the
two readings of March 2023 share the maximal pair. -/
theorem latestVitals_ties_missing_year :
    (∀ e ∈ [januaryNoYear] ++ march2023 :: [march2023Second], NotLater e march2023) ∧
    (∀ e ∈ [januaryNoYear], ¬ SamePair e march2023) ∧
    SamePair march2023Second march2023 ∧
    latestVitalsFromHistory (.array ([januaryNoYear] ++ march2023 :: [march2023Second]))
      = some januaryNoYear ∧
    latestVitalsFromHistory (.array ([januaryNoYear] ++ march2023 :: [march2023Second]))
      ≠ some march2023 := by
  refine ⟨?_, ?_, ?_, by decide, by decide⟩
  · intro e he
    simp only [List.singleton_append, List.mem_cons, List.mem_singleton, List.not_mem_nil,
      or_false] at he
    rcases he with rfl | rfl | rfl <;> (unfold NotLater; decide)
  · intro e he
    rw [List.mem_singleton.mp he]
    unfold SamePair
    decide
  · unfold SamePair
    decide

/-- C6 on a history with two readings of March 2023 after one of January: the
first of the two March readings is returned. -/
theorem latestVitals_first_of_ties_witness :
    latestVitalsFromHistory (.array ([january2023] ++ march2023 :: [march2023Second]))
      = some march2023 :=
  latestVitals_first_of_ties [january2023] [march2023Second] march2023
    (by
      intro e he
      simp only [List.singleton_append, List.mem_cons, List.mem_singleton, List.not_mem_nil,
        or_false] at he
      rcases he with rfl | rfl | rfl <;> exact ⟨2023, rfl⟩)
    (by
      intro e he
      simp only [List.singleton_append, List.mem_cons, List.mem_singleton, List.not_mem_nil,
        or_false] at he
      rcases he with rfl | rfl | rfl <;> (unfold NotLater; decide))
    (by
      intro e he
      rw [List.mem_singleton.mp he]
      unfold SamePair
      decide)

/-! ## Numerals of integers -/

theorem digitChar_value (d : Nat) (h : d < 10) : (Nat.digitChar d).toNat - 48 = d := by
  interval_cases d <;> rfl

theorem digitChar_ne_minus (d : Nat) (h : d < 10) : Nat.digitChar d ≠ '-' := by
  interval_cases d <;> decide

theorem toDigitsCore_value : ∀ (fuel n : Nat) (ds : List Char), n < fuel →
    digitsValue (Nat.toDigitsCore 10 fuel n ds) 0 = digitsValue ds n := by
  intro fuel
  induction fuel with
  | zero => intro n ds h; omega
  | succ f ih =>
    intro n ds h
    have hd : (Nat.digitChar (n % 10)).toNat - 48 = n % 10 :=
      digitChar_value _ (Nat.mod_lt _ (by decide))
    unfold Nat.toDigitsCore
    by_cases h0 : n / 10 = 0
    · simp only [h0, if_true]
      show digitsValue ds (10 * 0 + ((Nat.digitChar (n % 10)).toNat - 48)) = _
      rw [hd]
      congr 1
      omega
    · simp only [h0, if_false]
      rw [ih (n / 10) _ (by omega)]
      show digitsValue ds (10 * (n / 10) + ((Nat.digitChar (n % 10)).toNat - 48)) = _
      rw [hd]
      congr 1
      omega

theorem toDigitsCore_no_minus : ∀ (fuel n : Nat) (ds : List Char), (∀ c ∈ ds, c ≠ '-') →
    ∀ c ∈ Nat.toDigitsCore 10 fuel n ds, c ≠ '-' := by
  intro fuel
  induction fuel with
  | zero => intro n ds h; exact h
  | succ f ih =>
    intro n ds h
    have hds : ∀ c ∈ Nat.digitChar (n % 10) :: ds, c ≠ '-' := by
      intro c hc
      rcases List.mem_cons.mp hc with rfl | hc
      · exact digitChar_ne_minus _ (Nat.mod_lt _ (by decide))
      · exact h c hc
    unfold Nat.toDigitsCore
    by_cases h0 : n / 10 = 0
    · simpa only [h0, if_true] using hds
    · simpa only [h0, if_false] using ih (n / 10) _ hds

theorem natRepr_injective (m n : Nat) (h : Nat.repr m = Nat.repr n) : m = n := by
  have hl : Nat.toDigits 10 m = Nat.toDigits 10 n := by
    have := congrArg String.data h
    simpa [Nat.repr, List.asString] using this
  have hm := toDigitsCore_value (m + 1) m [] (by omega)
  have hn := toDigitsCore_value (n + 1) n [] (by omega)
  have : digitsValue (Nat.toDigits 10 m) 0 = digitsValue (Nat.toDigits 10 n) 0 := by rw [hl]
  unfold Nat.toDigits at this
  rw [hm, hn] at this
  exact this

theorem natRepr_no_minus (m : Nat) : '-' ∉ (Nat.repr m).data := by
  intro h
  exact toDigitsCore_no_minus (m + 1) m [] (by simp) '-' (by simpa [Nat.repr, List.asString, Nat.toDigits] using h) rfl

theorem numToString_injective (a b : Int) (h : numToString a = numToString b) : a = b := by
  unfold numToString at h
  cases a with
  | ofNat m =>
    cases b with
    | ofNat n =>
      have : Nat.repr m = Nat.repr n := h
      rw [natRepr_injective m n this]
    | negSucc n =>
      exfalso
      have h2 : Nat.repr m = "-" ++ Nat.repr (n + 1) := h
      have := natRepr_no_minus m
      rw [h2] at this
      simp at this
  | negSucc m =>
    cases b with
    | ofNat n =>
      exfalso
      have h2 : "-" ++ Nat.repr (m + 1) = Nat.repr n := h
      have := natRepr_no_minus n
      rw [← h2] at this
      simp at this
    | negSucc n =>
      have h2 : "-" ++ Nat.repr (m + 1) = "-" ++ Nat.repr (n + 1) := h
      have h3 : Nat.repr (m + 1) = Nat.repr (n + 1) := by
        have := congrArg String.data h2
        simp only [String.data_append, List.append_cancel_left_eq] at this
        exact String.ext this
      have := natRepr_injective _ _ h3
      have : m = n := by omega
      rw [this]
/-! ## Per-year aggregation -/

theorem bucketOf_push (o : ByYear) (k : String) (s d : Int) (k1 : String) :
    bucketOf (pushBucket o k s d) k1 =
      if k1 = k then { sys := (bucketOf o k).sys ++ [s], dia := (bucketOf o k).dia ++ [d] }
      else bucketOf o k1 := by
  induction o with
  | nil =>
    by_cases h : k1 = k
    · subst h
      simp [bucketOf, pushBucket, getBucket]
    · have h2 : ¬ k = k1 := fun hc => h hc.symm
      simp [bucketOf, pushBucket, getBucket, h, h2]
  | cons hd tl ih =>
    obtain ⟨k0, b⟩ := hd
    by_cases h0 : k0 = k
    · subst h0
      by_cases h : k1 = k0
      · subst h
        simp [bucketOf, pushBucket, getBucket]
      · have h2 : ¬ k0 = k1 := fun hc => h hc.symm
        simp [bucketOf, pushBucket, getBucket, h, h2]
    · by_cases h : k1 = k
      · subst h
        simp only [bucketOf, pushBucket, getBucket, h0, if_false, if_true] at ih ⊢
        exact ih
      · by_cases h3 : k0 = k1
        · simp [bucketOf, pushBucket, getBucket, h0, h, h3]
        · simp only [bucketOf, pushBucket, getBucket, h0, h, h3, if_false] at ih ⊢
          exact ih

theorem keys_push (o : ByYear) (k : String) (s d : Int) :
    (pushBucket o k s d).map Prod.fst =
      if k ∈ o.map Prod.fst then o.map Prod.fst else o.map Prod.fst ++ [k] := by
  induction o with
  | nil => simp [pushBucket]
  | cons hd tl ih =>
    obtain ⟨k0, b⟩ := hd
    by_cases h0 : k0 = k
    · subst h0
      simp [pushBucket]
    · have h1 : ¬ k = k0 := fun hc => h0 hc.symm
      simp only [pushBucket, h0, if_false, List.map_cons, ih, List.mem_cons, h1, false_or]
      split <;> simp

theorem groupStep_eq (o : ByYear) (e : HistoryEntry) :
    groupStep o e =
      match completeReading e with
      | some r => pushBucket o (numToString r.1) r.2.1 r.2.2
      | none => o := by
  unfold groupStep completeReading
  rcases e.year with _ | _ | y <;> rcases e.systolic with _ | _ | s <;>
    rcases e.diastolic with _ | _ | d <;> rfl

theorem fold_groupStep (es : List HistoryEntry) : ∀ o : ByYear,
    es.foldl groupStep o =
      (es.filterMap completeReading).foldl
        (fun o r => pushBucket o (numToString r.1) r.2.1 r.2.2) o := by
  induction es with
  | nil => intro o; rfl
  | cons e t ih =>
    intro o
    rw [List.foldl_cons, ih, groupStep_eq, List.filterMap_cons]
    cases completeReading e <;> rfl

theorem bucketOf_foldPush (rs : List (Int × Int × Int)) : ∀ (o : ByYear) (k : String),
    bucketOf (rs.foldl (fun o r => pushBucket o (numToString r.1) r.2.1 r.2.2) o) k =
      { sys := (bucketOf o k).sys ++
          (rs.filterMap (fun r => if numToString r.1 = k then some r.2 else none)).map Prod.fst,
        dia := (bucketOf o k).dia ++
          (rs.filterMap (fun r => if numToString r.1 = k then some r.2 else none)).map Prod.snd }
    := by
  induction rs with
  | nil => intro o k; simp
  | cons r t ih =>
    intro o k
    rw [List.foldl_cons, ih, bucketOf_push, List.filterMap_cons]
    by_cases h : k = numToString r.1
    · subst h
      simp
    · have h2 : ¬ numToString r.1 = k := fun hc => h hc.symm
      simp [h, h2]

theorem keys_foldPush (rs : List (Int × Int × Int)) : ∀ (o : ByYear) (k : String),
    k ∈ (rs.foldl (fun o r => pushBucket o (numToString r.1) r.2.1 r.2.2) o).map Prod.fst ↔
      k ∈ o.map Prod.fst ∨ ∃ r ∈ rs, numToString r.1 = k := by
  induction rs with
  | nil => intro o k; simp
  | cons r t ih =>
    intro o k
    rw [List.foldl_cons, ih, keys_push]
    by_cases hk : numToString r.1 ∈ o.map Prod.fst
    · rw [if_pos hk]
      constructor
      · rintro (h | ⟨r1, hr1, h⟩)
        · exact Or.inl h
        · exact Or.inr ⟨r1, List.mem_cons_of_mem _ hr1, h⟩
      · rintro (h | ⟨r1, hr1, h⟩)
        · exact Or.inl h
        · rcases List.mem_cons.mp hr1 with rfl | hr1
          · exact Or.inl (h ▸ hk)
          · exact Or.inr ⟨r1, hr1, h⟩
    · rw [if_neg hk]
      constructor
      · rintro (h | ⟨r1, hr1, h⟩)
        · rcases List.mem_append.mp h with h | h
          · exact Or.inl h
          · exact Or.inr ⟨r, List.mem_cons_self _ _, (List.mem_singleton.mp h).symm⟩
        · exact Or.inr ⟨r1, List.mem_cons_of_mem _ hr1, h⟩
      · rintro (h | ⟨r1, hr1, h⟩)
        · exact Or.inl (List.mem_append_left _ h)
        · rcases List.mem_cons.mp hr1 with rfl | hr1
          · exact Or.inl (List.mem_append_right _ (List.mem_singleton.mpr h.symm))
          · exact Or.inr ⟨r1, hr1, h⟩

theorem keys_foldPush_nodup (rs : List (Int × Int × Int)) : ∀ (o : ByYear),
    (o.map Prod.fst).Nodup →
      ((rs.foldl (fun o r => pushBucket o (numToString r.1) r.2.1 r.2.2) o).map Prod.fst).Nodup
    := by
  induction rs with
  | nil => intro o h; exact h
  | cons r t ih =>
    intro o h
    rw [List.foldl_cons]
    apply ih
    rw [keys_push]
    split
    · exact h
    · rename_i hk
      exact List.Nodup.append h (List.nodup_singleton _) (by simpa using hk)

theorem insertSorted_perm {α : Type} (cmp : α → α → Int) (a : α) (l : List α) :
    (insertSorted cmp a l).Perm (a :: l) := by
  induction l with
  | nil => exact List.Perm.refl _
  | cons b t ih =>
    unfold insertSorted
    split
    · exact List.Perm.refl _
    · exact (List.Perm.cons b ih).trans (List.Perm.swap a b t)

theorem arraySort_perm {α : Type} (cmp : α → α → Int) (l : List α) :
    (arraySort cmp l).Perm l := by
  induction l with
  | nil => exact List.Perm.refl _
  | cons a t ih =>
    exact (insertSorted_perm cmp a (arraySort cmp t)).trans (List.Perm.cons a ih)

theorem objectKeys_perm (o : ByYear) : (objectKeys o).Perm (o.map Prod.fst) := by
  unfold objectKeys
  have h1 : ((o.map Prod.fst).filterMap
      (fun k => (arrayIndex k).map (fun i => (i, k)))).map Prod.snd
      = (o.map Prod.fst).filter (fun k => (arrayIndex k).isSome) := by
    induction o.map Prod.fst with
    | nil => rfl
    | cons k t ih =>
      rw [List.filterMap_cons, List.filter_cons]
      cases h : arrayIndex k with
      | none => simpa using ih
      | some i => simpa using ih
  have h2 := (arraySort_perm (fun a b : Nat × String => (a.1 : Int) - (b.1 : Int))
    ((o.map Prod.fst).filterMap (fun k => (arrayIndex k).map (fun i => (i, k))))).map Prod.snd
  rw [h1] at h2
  refine (List.Perm.append_right _ h2).trans ?_
  have h3 := List.filter_append_perm (fun k => (arrayIndex k).isSome) (o.map Prod.fst)
  have h4 : (fun k : String => (arrayIndex k).isNone) = fun x => !(arrayIndex x).isSome := by
    funext k
    cases arrayIndex k <;> rfl
  rw [h4]
  exact h3

/-! ## Double arithmetic on small integers -/

theorem roundHalfEven_error (x : ℚ) : |(roundHalfEven x : ℚ) - x| ≤ 1 / 2 := by
  have h1 := Int.floor_le x
  have h2 := Int.lt_floor_add_one x
  unfold roundHalfEven
  rw [abs_le]
  split_ifs with ha hb hc
  · constructor <;> linarith
  · push_cast
    constructor <;> linarith
  · constructor <;> linarith
  · push_cast
    constructor <;> linarith

theorem roundHalfEven_intCast (m : Int) : roundHalfEven (m : ℚ) = m := by
  unfold roundHalfEven
  simp

theorem toDouble_eval (q : ℚ) (e M : Int) (hq : q ≠ 0)
    (h1 : (2 : ℚ) ^ (e + 52) ≤ |q|) (h2 : |q| < (2 : ℚ) ^ (e + 53))
    (hM : roundHalfEven (q / (2 : ℚ) ^ e) = M) : toDouble q = (M : ℚ) * (2 : ℚ) ^ e := by
  have hpos : 0 < |q| := abs_pos.mpr hq
  have hlog : Int.log 2 |q| = e + 52 := by
    apply le_antisymm
    · have := (Int.lt_zpow_iff_log_lt (b := 2) (by decide) (x := e + 53) hpos).mp
        (by simpa using h2)
      omega
    · exact (Int.zpow_le_iff_le_log (b := 2) (by decide) hpos).mp (by simpa using h1)
  unfold toDouble
  rw [if_neg hq, hlog]
  have : e + 52 - 52 = e := by omega
  rw [this, hM]

theorem toDouble_intCast (z : Int) (h : |z| < 2 ^ 53) : toDouble (z : ℚ) = z := by
  by_cases hz : z = 0
  · subst hz
    simp [toDouble]
  have hq : (z : ℚ) ≠ 0 := by exact_mod_cast hz
  have hpos : 0 < |(z : ℚ)| := abs_pos.mpr hq
  have habs : |(z : ℚ)| < (2 : ℚ) ^ (53 : ℤ) := by
    have : ((|z| : ℤ) : ℚ) < ((2 ^ 53 : ℤ) : ℚ) := by exact_mod_cast h
    rw [Int.cast_abs] at this
    norm_num at this ⊢
    exact this
  have hone : (2 : ℚ) ^ (0 : ℤ) ≤ |(z : ℚ)| := by
    have h1 : (1 : ℤ) ≤ |z| := Int.one_le_abs hz
    have : ((1 : ℤ) : ℚ) ≤ ((|z| : ℤ) : ℚ) := by exact_mod_cast h1
    simpa using this
  have hL1 : Int.log 2 |(z : ℚ)| < 53 :=
    (Int.lt_zpow_iff_log_lt (b := 2) (by decide) hpos).mp (by simpa using habs)
  have hL0 : 0 ≤ Int.log 2 |(z : ℚ)| :=
    (Int.zpow_le_iff_le_log (b := 2) (by decide) hpos).mp (by simpa using hone)
  unfold toDouble
  rw [if_neg hq]
  obtain ⟨j, hj⟩ : ∃ j : ℕ, Int.log 2 |(z : ℚ)| - 52 = -(j : ℤ) :=
    ⟨(52 - Int.log 2 |(z : ℚ)|).toNat, by omega⟩
  rw [hj]
  have hp : (2 : ℚ) ^ (-(j : ℤ)) = ((2 : ℚ) ^ j)⁻¹ := by
    rw [zpow_neg, zpow_natCast]
  have hpp : (0 : ℚ) < (2 : ℚ) ^ j := by positivity
  have hx : (z : ℚ) / (2 : ℚ) ^ (-(j : ℤ)) = ((z * 2 ^ j : ℤ) : ℚ) := by
    rw [hp]
    push_cast
    field_simp
  rw [hx, roundHalfEven_intCast, hp]
  push_cast
  field_simp

theorem mathRound_toDouble_div (s : Int) (n : Nat) (hn : 0 < n) (hs : |s| < 2 ^ 52) :
    mathRound (toDouble ((s : ℚ) / (n : ℚ))) = ⌊(s : ℚ) / (n : ℚ) + 1 / 2⌋ := by
  have hnq : (0 : ℚ) < (n : ℚ) := by exact_mod_cast hn
  by_cases hz : s = 0
  · subst hz
    simp [toDouble, mathRound]
  have hq : (s : ℚ) / (n : ℚ) ≠ 0 := by
    have : (s : ℚ) ≠ 0 := by exact_mod_cast hz
    exact div_ne_zero this (ne_of_gt hnq)
  have hpos : 0 < |(s : ℚ) / (n : ℚ)| := abs_pos.mpr hq
  -- the quotient is below 2^52 / n in magnitude
  have hsq : |(s : ℚ)| < (2 : ℚ) ^ (52 : ℕ) := by
    have : ((|s| : ℤ) : ℚ) < ((2 ^ 52 : ℤ) : ℚ) := by exact_mod_cast hs
    rw [Int.cast_abs] at this
    norm_num at this ⊢
    exact this
  have habs : |(s : ℚ) / (n : ℚ)| = |(s : ℚ)| / (n : ℚ) := by
    rw [abs_div, abs_of_pos hnq]
  -- the unit in the last place
  have hlog := Int.zpow_log_le_self (b := 2) (by decide) hpos
  set L := Int.log 2 |(s : ℚ) / (n : ℚ)| with hLdef
  have hlog2 : (2 : ℚ) ^ L ≤ |(s : ℚ)| / (n : ℚ) := by
    rw [← habs]
    simpa using hlog
  have hn1 : (1 : ℚ) ≤ (n : ℚ) := by exact_mod_cast hn
  have hL : L < 52 := by
    have h52 : |(s : ℚ) / (n : ℚ)| < ((2 : ℕ) : ℚ) ^ (52 : ℤ) := by
      rw [habs]
      have : |(s : ℚ)| / (n : ℚ) ≤ |(s : ℚ)| := div_le_self (abs_nonneg _) hn1
      have h2 : ((2 : ℕ) : ℚ) ^ (52 : ℤ) = (2 : ℚ) ^ (52 : ℕ) := by norm_num
      rw [h2]
      linarith
    exact (Int.lt_zpow_iff_log_lt (b := 2) (by decide) hpos).mp h52
  obtain ⟨j, hj⟩ : ∃ j : ℕ, L - 52 = -((j : ℤ) + 1) := ⟨(51 - L).toNat, by omega⟩
  unfold toDouble mathRound
  rw [if_neg hq, ← hLdef, hj]
  -- write the unit as 1 / (2 N)
  have hNpos : (0 : ℚ) < (2 : ℚ) ^ j := by positivity
  have hp : (2 : ℚ) ^ (-((j : ℤ) + 1)) = 1 / (2 * (2 : ℚ) ^ j) := by
    rw [zpow_neg, show ((j : ℤ) + 1) = ((j + 1 : ℕ) : ℤ) by push_cast; rfl, zpow_natCast,
      pow_succ]
    field_simp
    ring
  rw [hp]
  set N : ℚ := (2 : ℚ) ^ j with hN
  set q : ℚ := (s : ℚ) / (n : ℚ) with hqdef
  set M : ℤ := roundHalfEven (q / (1 / (2 * N))) with hM
  have hxe : q / (1 / (2 * N)) = 2 * N * q := by
    field_simp
    ring
  have herr := roundHalfEven_error (q / (1 / (2 * N)))
  rw [← hM, hxe, abs_le] at herr
  -- N is an integer
  have hNint : N = ((2 ^ j : ℤ) : ℚ) := by push_cast; rfl
  -- 2 N > n
  have hNn : (n : ℚ) < 2 * N := by
    -- 2^L = 2^52 / (2 N) ≤ |s| / n < 2^52 / n
    have hLval : (2 : ℚ) ^ L = (2 : ℚ) ^ (52 : ℕ) / (2 * N) := by
      have : L = (52 : ℤ) + (-((j : ℤ) + 1)) := by omega
      rw [this, zpow_add₀ (by norm_num : (2 : ℚ) ≠ 0), hp]
      norm_num
      ring
    rw [hLval] at hlog2
    have h3 : (2 : ℚ) ^ (52 : ℕ) / (2 * N) < (2 : ℚ) ^ (52 : ℕ) / (n : ℚ) := by
      calc (2 : ℚ) ^ (52 : ℕ) / (2 * N) ≤ |(s : ℚ)| / (n : ℚ) := hlog2
        _ < (2 : ℚ) ^ (52 : ℕ) / (n : ℚ) := by
          exact div_lt_div_of_pos_right hsq hnq
    have h2N : (0 : ℚ) < 2 * N := by positivity
    have h4 := (div_lt_div_iff_of_pos_left (by positivity : (0 : ℚ) < (2 : ℚ) ^ (52 : ℕ)) h2N hnq).mp h3
    exact h4
  -- the exact rounding
  set k : ℤ := ⌊q + 1 / 2⌋ with hk
  have hk1 : (k : ℚ) ≤ q + 1 / 2 := Int.floor_le _
  have hk2 : q + 1 / 2 < (k : ℚ) + 1 := Int.lt_floor_add_one _
  -- q ≤ k + 1/2 - 1/(2n)
  have hgap : q ≤ (k : ℚ) + 1 / 2 - 1 / (2 * (n : ℚ)) := by
    have h5 : (s : ℚ) < ((k : ℚ) + 1 / 2) * (n : ℚ) := by
      have : q < (k : ℚ) + 1 / 2 := by linarith
      rw [hqdef, div_lt_iff₀ hnq] at this
      exact this
    have h6 : 2 * s < (2 * k + 1) * (n : ℤ) := by
      have : (2 * (s : ℚ)) < (2 * (k : ℚ) + 1) * (n : ℚ) := by linarith
      exact_mod_cast this
    have h7 : 2 * s + 1 ≤ (2 * k + 1) * (n : ℤ) := by omega
    have h8 : (2 * (s : ℚ) + 1) ≤ (2 * (k : ℚ) + 1) * (n : ℚ) := by exact_mod_cast h7
    rw [hqdef, div_le_iff₀ hnq]
    have : 1 / (2 * (n : ℚ)) * (n : ℚ) = 1 / 2 := by
      field_simp
      ring
    nlinarith
  rw [Int.floor_eq_iff]
  have h2N : (0 : ℚ) < 2 * N := by positivity
  constructor
  · -- k - 1/2 ≤ M / (2N): from (2k-1) N ≤ M
    have hlow : (2 * k - 1) * (2 ^ j : ℤ) ≤ M := by
      by_contra hcon
      have hc : M + 1 ≤ (2 * k - 1) * (2 ^ j : ℤ) := by omega
      have hc2 : (M : ℚ) + 1 ≤ (2 * (k : ℚ) - 1) * N := by
        rw [hNint]
        exact_mod_cast hc
      nlinarith [herr.1]
    have hlow2 : (2 * (k : ℚ) - 1) * N ≤ (M : ℚ) := by
      rw [hNint]
      exact_mod_cast hlow
    have : (M : ℚ) * (1 / (2 * N)) = (M : ℚ) / (2 * N) := by ring
    rw [this]
    have h9 : (k : ℚ) - 1 / 2 ≤ (M : ℚ) / (2 * N) := by
      rw [le_div_iff₀ h2N]
      have e1 : ((k : ℚ) - 1 / 2) * (2 * N) = (2 * (k : ℚ) - 1) * N := by ring
      rw [e1]
      exact hlow2
    linarith
  · have hup : M < (2 * k + 1) * (2 ^ j : ℤ) := by
      by_contra hcon
      have hc : (2 * k + 1) * (2 ^ j : ℤ) ≤ M := by omega
      have hc2 : (2 * (k : ℚ) + 1) * N ≤ (M : ℚ) := by
        rw [hNint]
        exact_mod_cast hc
      -- M ≤ 2 N q + 1/2 ≤ (2k+1) N - N/n + 1/2 < (2k+1) N
      have h10 : 2 * N * q ≤ (2 * (k : ℚ) + 1) * N - N / (n : ℚ) := by
        have : 2 * N * q ≤ 2 * N * ((k : ℚ) + 1 / 2 - 1 / (2 * (n : ℚ))) :=
          mul_le_mul_of_nonneg_left hgap (le_of_lt h2N)
        have h11 : 2 * N * ((k : ℚ) + 1 / 2 - 1 / (2 * (n : ℚ)))
            = (2 * (k : ℚ) + 1) * N - N / (n : ℚ) := by
          field_simp
          ring
        linarith
      have h12 : (1 : ℚ) / 2 < N / (n : ℚ) := by
        rw [lt_div_iff₀ hnq]
        linarith
      linarith [herr.2]
    have hup2 : (M : ℚ) < (2 * (k : ℚ) + 1) * N := by
      rw [hNint]
      exact_mod_cast hup
    have : (M : ℚ) * (1 / (2 * N)) = (M : ℚ) / (2 * N) := by ring
    rw [this]
    have h9 : (M : ℚ) / (2 * N) < (k : ℚ) + 1 / 2 := by
      rw [div_lt_iff₀ h2N]
      have e1 : ((k : ℚ) + 1 / 2) * (2 * N) = (2 * (k : ℚ) + 1) * N := by ring
      rw [e1]
      exact hup2
    linarith

theorem abs_sum_le_absSum (xs : List Int) : |xs.sum| ≤ (absSum xs : Int) := by
  induction xs with
  | nil => simp [absSum]
  | cons x t ih =>
    have h1 : |x + t.sum| ≤ |x| + |t.sum| := abs_add x t.sum
    have h2 : |x| = (x.natAbs : Int) := Int.abs_eq_natAbs x
    have h3 : (absSum (x :: t) : Int) = (x.natAbs : Int) + (absSum t : Int) := by
      simp [absSum]
    rw [List.sum_cons, h3]
    omega

theorem foldl_fadd_exact (xs : List Int) : ∀ a : Int, |a| + (absSum xs : Int) < 2 ^ 53 →
    xs.foldl (fun (a : ℚ) (b : Int) => fadd a (b : ℚ)) (a : ℚ) = ((a + xs.sum : Int) : ℚ) := by
  induction xs with
  | nil => intro a _; simp
  | cons x t ih =>
    intro a h
    have h3 : (absSum (x :: t) : Int) = (x.natAbs : Int) + (absSum t : Int) := by
      simp [absSum]
    have h2 : |x| = (x.natAbs : Int) := Int.abs_eq_natAbs x
    have h4 : |a + x| ≤ |a| + |x| := abs_add a x
    have h5 : (0 : Int) ≤ (absSum t : Int) := Int.ofNat_nonneg _
    have hstep : fadd (a : ℚ) (x : ℚ) = ((a + x : Int) : ℚ) := by
      unfold fadd
      rw [← Int.cast_add]
      exact toDouble_intCast (a + x) (by omega)
    rw [List.foldl_cons, hstep, ih (a + x) (by omega), List.sum_cons, add_assoc]

theorem roundedQuotient_eq_floor (a : Int) (n : Nat) (h : 0 < n) :
    roundedQuotient a n = ⌊(a : ℚ) / (n : ℚ) + 1 / 2⌋ := by
  unfold roundedQuotient
  symm
  rw [Int.floor_eq_iff]
  have hn : (0 : ℚ) < (n : ℚ) := by exact_mod_cast h
  have h2 : (a : ℚ) / n + 1 / 2 = ((2 * a + n : Int) : ℚ) / ((2 * n : Int) : ℚ) := by
    push_cast
    field_simp
    ring
  rw [h2]
  have hz : (0 : Int) < 2 * n := by positivity
  have hq : (0 : ℚ) < ((2 * n : Int) : ℚ) := by exact_mod_cast hz
  constructor
  · rw [le_div_iff₀ hq]
    exact_mod_cast Int.ediv_mul_le _ (ne_of_gt hz)
  · rw [div_lt_iff₀ hq]
    exact_mod_cast Int.lt_ediv_add_one_mul_self _ hz

theorem avg_eq_floor (xs : List Int) (n : Nat) (hn : 0 < n)
    (hlen : (if xs.length = 0 then 1 else xs.length) = n) (h : absSum xs < 2 ^ 52) :
    avg xs = ⌊((xs.sum : Int) : ℚ) / (n : ℚ) + 1 / 2⌋ := by
  have hb : (absSum xs : Int) < 2 ^ 52 := by exact_mod_cast h
  have hs : |xs.sum| < 2 ^ 52 := lt_of_le_of_lt (abs_sum_le_absSum xs) hb
  have hfold := foldl_fadd_exact xs 0 (by simp; omega)
  unfold avg
  simp only [hlen]
  rw [show ((0 : ℚ)) = ((0 : Int) : ℚ) by simp, hfold, zero_add]
  unfold fdiv
  exact mathRound_toDouble_div xs.sum n hn hs

theorem avg_eq_roundedMean (xs : List Int) (h : absSum xs < 2 ^ 52) :
    avg xs = roundedMean xs := by
  cases xs with
  | nil =>
    rw [avg_eq_floor [] 1 (by decide) rfl h]
    unfold roundedMean
    simp
  | cons x t =>
    have hl : 0 < (x :: t).length := by simp
    have hl2 : (x :: t).length ≠ 0 := by omega
    rw [avg_eq_floor (x :: t) (x :: t).length hl (by simp only [hl2, if_false]) h]
    rfl

theorem avg_eq_roundedQuotient (xs : List Int) (h : absSum xs < 2 ^ 52) :
    avg xs = roundedQuotient xs.sum (if xs.length = 0 then 1 else xs.length) := by
  have hn : 0 < (if xs.length = 0 then 1 else xs.length) := by
    split <;> omega
  rw [avg_eq_floor xs _ hn rfl h, roundedQuotient_eq_floor _ _ hn]

theorem absSum_filterMap_le {α : Type} (f : α → Option (Int × Int)) (g : Int × Int → Int)
    (rs : List α) (bound : α → Nat)
    (hb : ∀ r p, f r = some p → (g p).natAbs ≤ bound r) :
    absSum ((rs.filterMap f).map g) ≤ (rs.map bound).sum := by
  induction rs with
  | nil => simp [absSum]
  | cons r t ih =>
    rw [List.filterMap_cons]
    cases hf : f r with
    | none =>
      simp only [List.map_cons, List.sum_cons]
      omega
    | some p =>
      have := hb r p hf
      simp only [absSum, List.map_cons, List.sum_cons] at ih ⊢
      omega

theorem absSum_yearReadings_le (y : Int) (es : List HistoryEntry) :
    absSum ((yearReadings y es).map Prod.fst) ≤ systolicMass es ∧
    absSum ((yearReadings y es).map Prod.snd) ≤ diastolicMass es := by
  unfold yearReadings systolicMass diastolicMass
  constructor
  · apply absSum_filterMap_le
    intro r p hp
    by_cases h : r.1 = y
    · simp only [h, if_true, Option.some.injEq] at hp
      rw [← hp]
    · simp [h] at hp
  · apply absSum_filterMap_le
    intro r p hp
    by_cases h : r.1 = y
    · simp only [h, if_true, Option.some.injEq] at hp
      rw [← hp]
    · simp [h] at hp

theorem absSum_keyReadings_le (k : String) (es : List HistoryEntry) :
    absSum ((keyReadings k es).map Prod.fst) ≤ systolicMass es ∧
    absSum ((keyReadings k es).map Prod.snd) ≤ diastolicMass es := by
  unfold keyReadings systolicMass diastolicMass
  constructor
  · apply absSum_filterMap_le
    intro r p hp
    by_cases h : numToString r.1 = k
    · simp only [h, if_true, Option.some.injEq] at hp
      rw [← hp]
    · simp [h] at hp
  · apply absSum_filterMap_le
    intro r p hp
    by_cases h : numToString r.1 = k
    · simp only [h, if_true, Option.some.injEq] at hp
      rw [← hp]
    · simp [h] at hp

theorem keyReadings_numeral (y : Int) (es : List HistoryEntry) :
    keyReadings (numToString y) es = yearReadings y es := by
  unfold keyReadings yearReadings
  congr 1
  funext r
  by_cases h : r.1 = y
  · simp [h]
  · have h2 : ¬ numToString r.1 = numToString y := fun hc => h (numToString_injective _ _ hc)
    simp [h, h2]

theorem mem_completeReading (es : List HistoryEntry) (r : Int × Int × Int) :
    r ∈ es.filterMap completeReading ↔
      ∃ e ∈ es, e.year = .val r.1 ∧ e.systolic = .val r.2.1 ∧ e.diastolic = .val r.2.2 := by
  rw [List.mem_filterMap]
  constructor
  · rintro ⟨e, he, hr⟩
    refine ⟨e, he, ?_⟩
    unfold completeReading at hr
    rcases hy : e.year with _ | _ | y <;> rcases hs : e.systolic with _ | _ | s <;>
      rcases hd : e.diastolic with _ | _ | d <;> simp [hy, hs, hd] at hr
    subst hr
    exact ⟨rfl, rfl, rfl⟩
  · rintro ⟨e, he, hy, hs, hd⟩
    refine ⟨e, he, ?_⟩
    unfold completeReading
    rw [hy, hs, hd]

theorem aggregateByYear_eq (es : List HistoryEntry) :
    aggregateByYear es =
      { labels := arraySort defaultCmp (objectKeys (es.foldl groupStep []))
        systolic := (arraySort defaultCmp (objectKeys (es.foldl groupStep []))).map
          (fun k => avg (bucketOf (es.foldl groupStep []) k).sys)
        diastolic := (arraySort defaultCmp (objectKeys (es.foldl groupStep []))).map
          (fun k => avg (bucketOf (es.foldl groupStep []) k).dia) } := rfl

theorem mem_labels_iff (es : List HistoryEntry) (k : String) :
    k ∈ (aggregateByYear es).labels ↔
      ∃ r ∈ es.filterMap completeReading, numToString r.1 = k := by
  rw [aggregateByYear_eq]
  show k ∈ arraySort defaultCmp (objectKeys (es.foldl groupStep [])) ↔ _
  rw [((arraySort_perm defaultCmp _).trans (objectKeys_perm _)).mem_iff, fold_groupStep,
    keys_foldPush]
  simp

theorem bucketOf_keyReadings (es : List HistoryEntry) (k : String) :
    (bucketOf (es.foldl groupStep []) k).sys = (keyReadings k es).map Prod.fst ∧
    (bucketOf (es.foldl groupStep []) k).dia = (keyReadings k es).map Prod.snd := by
  unfold keyReadings
  rw [fold_groupStep, bucketOf_foldPush]
  simp [bucketOf, getBucket]

theorem bucketOf_aggregate (es : List HistoryEntry) (y : Int) :
    (bucketOf (es.foldl groupStep []) (numToString y)).sys = (yearReadings y es).map Prod.fst ∧
    (bucketOf (es.foldl groupStep []) (numToString y)).dia = (yearReadings y es).map Prod.snd
    := by
  rw [← keyReadings_numeral]
  exact bucketOf_keyReadings es (numToString y)

theorem aggregateByYear_eq_exact (es : List HistoryEntry)
    (hs : systolicMass es < 2 ^ 52) (hd : diastolicMass es < 2 ^ 52) :
    aggregateByYear es = exactAggregate es := by
  rw [aggregateByYear_eq]
  unfold exactAggregate
  have h1 : ∀ k, avg (bucketOf (es.foldl groupStep []) k).sys
      = exactAvg (bucketOf (es.foldl groupStep []) k).sys := by
    intro k
    rw [avg_eq_roundedQuotient]
    · rfl
    · rw [(bucketOf_keyReadings es k).1]
      exact lt_of_le_of_lt (absSum_keyReadings_le k es).1 hs
  have h2 : ∀ k, avg (bucketOf (es.foldl groupStep []) k).dia
      = exactAvg (bucketOf (es.foldl groupStep []) k).dia := by
    intro k
    rw [avg_eq_roundedQuotient]
    · rfl
    · rw [(bucketOf_keyReadings es k).2]
      exact lt_of_le_of_lt (absSum_keyReadings_le k es).2 hd
  simp only [h1, h2]

theorem roundHalfEven_tie_even (m : Int) (h : m % 2 = 0) :
    roundHalfEven ((m : ℚ) + 1 / 2) = m := by
  have hf : ⌊(m : ℚ) + 1 / 2⌋ = m := by
    rw [Int.floor_eq_iff]
    constructor <;> linarith
  unfold roundHalfEven
  rw [hf]
  norm_num [h]

theorem toDouble_two_pow_53 : toDouble 9007199254740992 = 9007199254740992 := by
  have h := toDouble_eval 9007199254740992 1 4503599627370496 (by norm_num)
    (by norm_num) (by norm_num)
    (by
      have : (9007199254740992 : ℚ) / 2 ^ (1 : ℤ) = ((4503599627370496 : Int) : ℚ) := by
        norm_num
      rw [this, roundHalfEven_intCast])
  rw [h]
  norm_num

theorem toDouble_two_pow_53_add_one : toDouble 9007199254740993 = 9007199254740992 := by
  have h := toDouble_eval 9007199254740993 1 4503599627370496 (by norm_num)
    (by norm_num) (by norm_num)
    (by
      have : (9007199254740993 : ℚ) / 2 ^ (1 : ℤ) = ((4503599627370496 : Int) : ℚ) + 1 / 2 := by
        norm_num
      rw [this, roundHalfEven_tie_even _ (by decide)])
  rw [h]
  norm_num

theorem fadd_zero_two_pow_53 : fadd 0 ((9007199254740992 : Int) : ℚ) = 9007199254740992 := by
  unfold fadd
  rw [zero_add]
  exact_mod_cast toDouble_two_pow_53

theorem fadd_two_pow_53_one : fadd 9007199254740992 ((1 : Int) : ℚ) = 9007199254740992 := by
  unfold fadd
  have : (9007199254740992 : ℚ) + ((1 : Int) : ℚ) = 9007199254740993 := by norm_num
  rw [this]
  exact toDouble_two_pow_53_add_one

theorem two_pow_52_small : |(4503599627370496 : Int)| < 2 ^ 53 := by
  rw [abs_lt]
  constructor <;> norm_num

theorem fdiv_two_pow_53_two : fdiv 9007199254740992 ((2 : Nat) : ℚ) = 4503599627370496 := by
  unfold fdiv
  have : (9007199254740992 : ℚ) / ((2 : Nat) : ℚ) = ((4503599627370496 : Int) : ℚ) := by
    norm_num
  rw [this, toDouble_intCast _ two_pow_52_small]
  norm_num

theorem mathRound_two_pow_52 : mathRound 4503599627370496 = 4503599627370496 := by
  unfold mathRound
  rw [Int.floor_eq_iff]
  constructor <;> norm_num

theorem avg_pair (a b : Int) :
    avg [a, b] = mathRound (fdiv (fadd (fadd 0 (a : ℚ)) (b : ℚ)) ((2 : Nat) : ℚ)) := rfl

theorem avg_two_pow_53_and_one : avg [9007199254740992, 1] = 4503599627370496 := by
  rw [avg_pair, fadd_zero_two_pow_53, fadd_two_pow_53_one, fdiv_two_pow_53_two,
    mathRound_two_pow_52]


/-- C2, as stated, fails once a sum leaves the integers that doubles hold
exactly: for the systolic values `2 ^ 53` and `1` of 2023 the script's sum
rounds to `2 ^ 53`, so the point is 4503599627370496, while the arithmetic
mean rounded half up is 4503599627370497. -/
theorem aggregateByYear_huge_sum_rounds :
    (aggregateByYear [huge2023, one2023]).labels[0]? = some (numToString 2023) ∧
    yearReadings 2023 [huge2023, one2023] = [(9007199254740992, 80), (1, 85)] ∧
    (aggregateByYear [huge2023, one2023]).systolic[0]? = some 4503599627370496 ∧
    roundedMean ((yearReadings 2023 [huge2023, one2023]).map Prod.fst) = 4503599627370497 ∧
    (aggregateByYear [huge2023, one2023]).systolic[0]?
      ≠ some (roundedMean ((yearReadings 2023 [huge2023, one2023]).map Prod.fst)) := by
  have hl : arraySort defaultCmp (objectKeys ([huge2023, one2023].foldl groupStep []))
      = ["2023"] := by decide
  have hb : (bucketOf ([huge2023, one2023].foldl groupStep []) "2023").sys
      = [9007199254740992, 1] := by decide
  have hy : yearReadings 2023 [huge2023, one2023] = [(9007199254740992, 80), (1, 85)] := by
    decide
  have hsys : (aggregateByYear [huge2023, one2023]).systolic[0]?
      = some 4503599627370496 := by
    rw [aggregateByYear_eq]
    simp only [hl, List.map_cons, List.map_nil, hb, avg_two_pow_53_and_one]
    rfl
  have hmean : roundedMean ((yearReadings 2023 [huge2023, one2023]).map Prod.fst)
      = 4503599627370497 := by
    rw [hy]
    unfold roundedMean
    rw [Int.floor_eq_iff]
    constructor <;> norm_num
  refine ⟨?_, hy, hsys, hmean, ?_⟩
  · rw [aggregateByYear_eq]
    simp only [hl]
    decide
  · rw [hsys, hmean]
    decide

/-- C2, amended: when the years are integers below `2 ^ 53` in magnitude and,
for every year, the absolute systolic values and the absolute diastolic values
of its complete readings each add up to less than `2 ^ 52`, the aggregation of
`renderBPChart` has one label per year, the numeral of the year; a year is
present exactly when some entry of that year has a numeric year and both a
systolic and a diastolic value; and the systolic (diastolic) point of a year
is the arithmetic mean of the systolic (diastolic) values of exactly those
entries, rounded to the nearest integer with halves rounded up. -/
theorem aggregateByYear_rounded_means (es : List HistoryEntry)
    (hyear : ∀ e ∈ es, ∀ y : Int, e.year = .val y → y.natAbs < 2 ^ 53)
    (hsum : ∀ y : Int, absSum ((yearReadings y es).map Prod.fst) < 2 ^ 52 ∧
      absSum ((yearReadings y es).map Prod.snd) < 2 ^ 52) :
    (es ≠ [] → renderBPChart (.array es) = some (aggregateByYear es)) ∧
    (∀ k ∈ (aggregateByYear es).labels, ∃ y : Int, k = numToString y) ∧
    (aggregateByYear es).labels.Nodup ∧
    (∀ y : Int, numToString y ∈ (aggregateByYear es).labels ↔
      ∃ e ∈ es, e.year = .val y ∧ (∃ s, e.systolic = .val s) ∧ ∃ d, e.diastolic = .val d) ∧
    (∀ (i : Nat) (y : Int), (aggregateByYear es).labels[i]? = some (numToString y) →
      (aggregateByYear es).systolic[i]?
        = some (roundedMean ((yearReadings y es).map Prod.fst)) ∧
      (aggregateByYear es).diastolic[i]?
        = some (roundedMean ((yearReadings y es).map Prod.snd))) := by
  refine ⟨?_, ?_, ?_, ?_, ?_⟩
  · intro hne
    cases es with
    | nil => exact absurd rfl hne
    | cons a t => rfl
  · intro k hk
    obtain ⟨r, _, hr⟩ := (mem_labels_iff es k).mp hk
    exact ⟨r.1, hr.symm⟩
  · rw [aggregateByYear_eq]
    show (arraySort defaultCmp (objectKeys (es.foldl groupStep []))).Nodup
    rw [((arraySort_perm defaultCmp _).trans (objectKeys_perm _)).nodup_iff, fold_groupStep]
    exact keys_foldPush_nodup _ [] List.nodup_nil
  · intro y
    rw [mem_labels_iff]
    constructor
    · rintro ⟨r, hr, hy⟩
      obtain ⟨e, he, h1, h2, h3⟩ := (mem_completeReading es r).mp hr
      have : r.1 = y := numToString_injective _ _ hy
      exact ⟨e, he, this ▸ h1, ⟨_, h2⟩, ⟨_, h3⟩⟩
    · rintro ⟨e, he, h1, ⟨s, h2⟩, ⟨d, h3⟩⟩
      exact ⟨(y, s, d), (mem_completeReading es (y, s, d)).mpr ⟨e, he, h1, h2, h3⟩, rfl⟩
  · intro i y hi
    rw [aggregateByYear_eq] at hi ⊢
    simp only at hi ⊢
    rw [List.getElem?_map, List.getElem?_map, hi]
    simp only [Option.map_some', (bucketOf_aggregate es y).1, (bucketOf_aggregate es y).2]
    rw [avg_eq_roundedMean _ (hsum y).1, avg_eq_roundedMean _ (hsum y).2]
    exact ⟨rfl, rfl⟩

/-- The amended C2 on the end-to-end example: systolic 120 and 130, diastolic
80 and 85 in 2023 give the points 125 and 83. -/
theorem aggregateByYear_rounded_means_witness :
    renderBPChart (.array [january2023, march2023])
      = some { labels := ["2023"], systolic := [125], diastolic := [83] } ∧
    yearReadings 2023 [january2023, march2023] = [(120, 80), (130, 85)] ∧
    (aggregateByYear [january2023, march2023]).systolic[0]?
      = some (roundedMean ((yearReadings 2023 [january2023, march2023]).map Prod.fst)) ∧
    (aggregateByYear [january2023, march2023]).diastolic[0]?
      = some (roundedMean ((yearReadings 2023 [january2023, march2023]).map Prod.snd)) :=
  have hyear : ∀ e ∈ [january2023, march2023], ∀ y : Int, e.year = .val y →
      y.natAbs < 2 ^ 53 := by
    intro e he y hy
    simp only [List.mem_cons, List.mem_singleton, List.not_mem_nil, or_false] at he
    rcases he with rfl | rfl <;>
      · have h : y = 2023 := (JsField.val.inj hy).symm
        subst h
        decide
  have hsum : ∀ y : Int,
      absSum ((yearReadings y [january2023, march2023]).map Prod.fst) < 2 ^ 52 ∧
      absSum ((yearReadings y [january2023, march2023]).map Prod.snd) < 2 ^ 52 :=
    fun y => ⟨lt_of_le_of_lt (absSum_yearReadings_le y _).1 (by decide),
      lt_of_le_of_lt (absSum_yearReadings_le y _).2 (by decide)⟩
  ⟨by
      show some (aggregateByYear [january2023, march2023]) = _
      rw [aggregateByYear_eq_exact _ (by decide) (by decide)]
      decide,
    by decide,
    ((aggregateByYear_rounded_means [january2023, march2023] hyear hsum).2.2.2.2 0 2023
      (by decide)).1,
    ((aggregateByYear_rounded_means [january2023, march2023] hyear hsum).2.2.2.2 0 2023
      (by decide)).2⟩

/-- C3: on a history with readings of the years 2023 and 999 the labels come
out as "2023", "999", the order of the numerals as strings, although 999 is
the earlier year; the two series follow the labels. -/
theorem labels_follow_string_order :
    aggregateByYear [january2023, march999]
      = { labels := ["2023", "999"], systolic := [120, 110], diastolic := [80, 70] } ∧
    numToString 999 = "999" ∧ numToString 2023 = "2023" ∧ (999 : Int) < 2023 := by
  refine ⟨?_, by decide, by decide, by decide⟩
  rw [aggregateByYear_eq_exact _ (by decide) (by decide)]
  decide

end NewWEB
